import Mathlib

/-!
Verification of the cznic/wm terminal window manager against its
natural-language specification.

The Go sources are shallowly embedded: value types (Position, Size,
Rectangle) become Lean structures over Int, the geometry methods become
Lean functions translated statement by statement from the Go bodies, and
the stateful parts (update nesting, invalidation accumulation, the mouse
button finite state machine, application termination) become explicit
state-passing functions or small step relations.  Machine integers are
modelled as unbounded Int, which is faithful here: the program performs
no intentional wrap-around arithmetic.
-/

namespace WM

/-- Position represents 2D coordinates (geometry.go). -/
structure Position where
  X : Int
  Y : Int
deriving DecidableEq, Repr

/-- Size represents 2D dimensions (geometry.go). -/
structure Size where
  Width : Int
  Height : Int
deriving DecidableEq, Repr

/-- Rectangle represents a 2D area (geometry.go).  The Go struct embeds
Position and Size; the promoted fields r.X, r.Y, r.Width, r.Height are
provided below as accessors. -/
structure Rectangle where
  pos : Position
  size : Size
deriving DecidableEq, Repr

def Rectangle.X (r : Rectangle) : Int := r.pos.X

def Rectangle.Y (r : Rectangle) : Int := r.pos.Y

def Rectangle.Width (r : Rectangle) : Int := r.size.Width

def Rectangle.Height (r : Rectangle) : Int := r.size.Height

/-- Modelled from the spec: Position.add is used throughout the window
code (w.position, viewport arithmetic) but its one-line definition lives
in a geometry helper not included under src/; it is componentwise
vector addition. -/
def Position.add (p q : Position) : Position := ⟨p.X + q.X, p.Y + q.Y⟩

/-- Modelled from the spec: componentwise vector subtraction, the
counterpart of Position.add (same missing helper file). -/
def Position.sub (p q : Position) : Position := ⟨p.X - q.X, p.Y - q.Y⟩

/-- Size.IsZero: s.Width <= 0 || s.Height <= 0 (geometry.go). -/
def Size.IsZero (s : Size) : Bool := decide (s.Width ≤ 0) || decide (s.Height ≤ 0)

/-- Rectangle.IsZero via the embedded Size. -/
def Rectangle.IsZero (r : Rectangle) : Bool := r.size.IsZero

/-- Rectangle.Has: p.X >= r.X && p.X < r.X+r.Width && p.Y >= r.Y &&
p.Y < r.Y+r.Height (geometry.go). -/
def Rectangle.Has (r : Rectangle) (p : Position) : Bool :=
  decide (p.X ≥ r.X) && decide (p.X < r.X + r.Width) &&
  decide (p.Y ≥ r.Y) && decide (p.Y < r.Y + r.Height)

/-- Intersection of two left-closed integer intervals [a1,b1) and
[a2,b2), modelling the external github.com/cznic/interval package as
Rectangle.Clip uses it: the result is [max a1 a2, min b1 b2), and its
Class() is Empty exactly when that set has no points. -/
def intervalIntersectLC (a1 b1 a2 b2 : Int) : Option (Int × Int) :=
  if min b1 b2 ≤ max a1 a2 then none else some (max a1 a2, min b1 b2)

/-- Rectangle.Clip (geometry.go): per-axis half-open interval
intersection.  Go mutates the receiver and returns a Bool; here none
models the false return (receiver value unspecified) and some t models
the true return with receiver set to t. -/
def Rectangle.Clip (r s : Rectangle) : Option Rectangle :=
  match intervalIntersectLC r.X (r.X + r.Width) s.X (s.X + s.Width) with
  | none => none
  | some h =>
    match intervalIntersectLC r.Y (r.Y + r.Height) s.Y (s.Y + s.Height) with
    | none => none
    | some v => some ⟨⟨h.1, v.1⟩, ⟨h.2 - h.1, v.2 - v.1⟩⟩

/-- Rectangle.join (geometry.go), translated with the exact statement
order of the Go body: r.X is assigned its new value BEFORE r.Width is
computed from r.X+r.Width, and likewise for r.Y and r.Height. -/
def Rectangle.join (r s : Rectangle) : Rectangle :=
  if s.IsZero then r
  else if r.IsZero then s
  else
    let x := min r.X s.X
    let w := max (x + r.Width) (s.X + s.Width) - x
    let y := min r.Y s.Y
    let h := max (y + r.Height) (s.Y + s.Height) - y
    ⟨⟨x, y⟩, ⟨w, h⟩⟩

/-- The zero rectangle (Go: Rectangle{}). -/
def zeroRect : Rectangle := ⟨⟨0, 0⟩, ⟨0, 0⟩⟩

/-- The state manipulated by the update/paint engine: the desktop's
invalidation accumulator and update-nesting counter (Desktop.invalidated,
Desktop.updateLevel), the application's own nesting counter
(Application.updateLevel), and an observable trace: the areas handed to
the root window for actual rendering and the number of backend flushes
(screen.Show calls).  The selection overlay toggled by
Application.paintSelection touches only screen cells, not this state,
and is not modelled. -/
structure PaintState where
  updateLevel : Int
  invalidated : Rectangle
  appUpdateLevel : Int
  painted : List Rectangle
  flushes : Nat
deriving DecidableEq, Repr

/-- Application.beginUpdate: increments the application nesting
counter. -/
def appBeginUpdate (st : PaintState) : PaintState :=
  { st with appUpdateLevel := st.appUpdateLevel + 1 }

/-- Application.endUpdate: decrements the counter; at zero the backend
is flushed (screen.Show). -/
def appEndUpdate (st : PaintState) : PaintState :=
  if st.appUpdateLevel - 1 = 0 then
    { st with appUpdateLevel := st.appUpdateLevel - 1, flushes := st.flushes + 1 }
  else
    { st with appUpdateLevel := st.appUpdateLevel - 1 }

/-- Window.BeginUpdate (window.go), non-nil receiver branch: increments
the desktop counter and, when it becomes 1, resets the invalidation
accumulator. -/
def BeginUpdate (st : PaintState) : PaintState :=
  if st.updateLevel + 1 = 1 then
    { st with updateLevel := st.updateLevel + 1, invalidated := zeroRect }
  else
    { st with updateLevel := st.updateLevel + 1 }

/-- Static geometry of one window as used by the paint engine: size,
parent-relative position, client area (in window coordinates) and
viewport origin (w.view), plus the fields the paint stages consult. -/
structure WinGeom where
  size : Size
  position : Position
  clientArea : Rectangle
  view : Position
  borderTop : Int
  borderLeft : Int
  borderRight : Int
  borderBottom : Int
  title : String
  closeButton : Bool
deriving DecidableEq, Repr

/-- A window with its chain of ancestors up to the desktop root
(w.Parent() links), carrying the geometry of every window on the
path. -/
inductive WinPath where
  | root (g : WinGeom)
  | child (g : WinGeom) (parent : WinPath)
deriving Repr

/-- The geometry of the path's own (deepest) window. -/
def WinPath.geom : WinPath → WinGeom
  | .root g => g
  | .child g _ => g

/-- The deferred branch of Window.paint (window.go): while the desktop
update counter is non-zero, the requested area is walked up the parent
chain -- area.Position = area.add(w.Position()).add(
p.ClientPosition().sub(p.Origin())), clipped against p.ClientArea() --
and the surviving rectangle, now in root-window coordinates, is
returned; none models the early return when some clip is empty. -/
def paintDefer : WinPath → Rectangle → Option Rectangle
  | .root _, area => some area
  | .child g p, area =>
    let moved : Rectangle :=
      ⟨(area.pos.add g.position).add (p.geom.clientArea.pos.sub p.geom.view), area.size⟩
    match moved.Clip p.geom.clientArea with
    | none => none
    | some a2 => paintDefer p a2

/-- Window.paint (window.go) as a state transformer, covering the entry
guard (zero area, clip against the window size) and both branches: the
deferral into Desktop.invalidated while updateLevel is non-zero, and --
for the level-zero call made by EndUpdate on the root -- the actual
rendering, recorded in the painted trace.  The guard d != App.Desktop()
is not modelled: all scenarios concern the active desktop. -/
def Window.paintOp (w : WinPath) (area : Rectangle) (st : PaintState) : PaintState :=
  if area.IsZero then st
  else
    match area.Clip ⟨⟨0, 0⟩, w.geom.size⟩ with
    | none => st
    | some a =>
      if st.updateLevel ≠ 0 then
        match paintDefer w a with
        | none => st
        | some rootArea => { st with invalidated := st.invalidated.join rootArea }
      else
        { st with painted := st.painted ++ [a] }

/-- Window.EndUpdate (window.go), non-nil receiver branch: decrements
the desktop counter; when it reaches zero and the accumulator is
non-zero, the root window repaints the accumulated region between
Application.beginUpdate and Application.endUpdate (which flushes). -/
def EndUpdate (rootG : WinGeom) (st : PaintState) : PaintState :=
  let st1 := { st with updateLevel := st.updateLevel - 1 }
  if st.updateLevel - 1 = 0 ∧ st.invalidated.IsZero = false then
    appEndUpdate (Window.paintOp (.root rootG) st.invalidated (appBeginUpdate st1))
  else st1

/-- Window.Invalidate (window.go): clips the area against the window
size (returning unchanged if empty) and wraps a paint request in
BeginUpdate/EndUpdate. -/
def Invalidate (rootG : WinGeom) (w : WinPath) (area : Rectangle) (st : PaintState) :
    PaintState :=
  match area.Clip ⟨⟨0, 0⟩, w.geom.size⟩ with
  | none => st
  | some a => EndUpdate rootG (Window.paintOp w a (BeginUpdate st))

/-- Window.InvalidateClientArea (window.go): translates the requested
area by the client position minus the viewport origin, clips it against
the client area, and wraps a paint request in BeginUpdate/EndUpdate. -/
def InvalidateClientArea (rootG : WinGeom) (w : WinPath) (area : Rectangle)
    (st : PaintState) : PaintState :=
  let a0 : Rectangle :=
    ⟨(area.pos.add w.geom.clientArea.pos).sub w.geom.view, area.size⟩
  match a0.Clip w.geom.clientArea with
  | none => st
  | some a => EndUpdate rootG (Window.paintOp w a (BeginUpdate st))

/-- One Invalidate or InvalidateClientArea request, naming the issuing
window by its ancestor path. -/
structure InvalRequest where
  w : WinPath
  area : Rectangle
  viaClientArea : Bool

/-- Runs one request against the state. -/
def runRequest (rootG : WinGeom) (st : PaintState) (q : InvalRequest) : PaintState :=
  if q.viaClientArea then InvalidateClientArea rootG q.w q.area st
  else Invalidate rootG q.w q.area st

/-- Runs a list of requests left to right. -/
def runRequests (rootG : WinGeom) (st : PaintState) (qs : List InvalRequest) : PaintState :=
  qs.foldl (runRequest rootG) st

/-- The root-coordinate rectangle a request contributes to the
accumulator while updates are nested (or none if it is clipped away),
obtained by composing the request translation, the window-size clip and
the deferral walk. -/
def requestRootArea (q : InvalRequest) : Option Rectangle :=
  let a0 : Rectangle :=
    if q.viaClientArea then
      ⟨(q.area.pos.add q.w.geom.clientArea.pos).sub q.w.geom.view, q.area.size⟩
    else q.area
  let cl := if q.viaClientArea then q.w.geom.clientArea else ⟨⟨0, 0⟩, q.w.geom.size⟩
  match a0.Clip cl with
  | none => none
  | some a1 =>
    match a1.Clip ⟨⟨0, 0⟩, q.w.geom.size⟩ with
    | none => none
    | some a2 => paintDefer q.w a2

/-- Joins one request's root-coordinate contribution (if any) into an
accumulator value. -/
def joinContribution (r : Rectangle) (q : InvalRequest) : Rectangle :=
  match requestRootArea q with
  | none => r
  | some a => r.join a

/-- The accumulator after a list of nested requests: the left fold of
Rectangle.join over the contributed root-coordinate areas, starting from
the zero rectangle that BeginUpdate installed. -/
def accumOf (qs : List InvalRequest) : Rectangle :=
  qs.foldl joinContribution zeroRect

/-- A set-property handler chain (handler.go, the OnSet...HandlerList
family: Size, Position, Int, Bool, Style, String, Rectangle, Duration,
...), generic over the property type.  Each node's h field is the
composed closure stored by AddOn...Handler, which may invoke the
previous handler itself; it is modelled as an arbitrary state
transformer receiving the current destination value and the source
value.  Finalizers are irrelevant to Handle and omitted. -/
inductive OnSetHandlerList (α : Type) where
  | nil : OnSetHandlerList α
  | node (h : PaintState → α → α → PaintState × α) (prev : OnSetHandlerList α) :
      OnSetHandlerList α

/-- OnSet...HandlerList.Handle (handler.go): no-op if *dst == src;
direct assignment if the list is empty; otherwise the head closure runs
between Window.BeginUpdate and Window.EndUpdate and is itself
responsible for the assignment.  Returns the final paint state and the
final value of *dst. -/
def OnSetHandlerList.Handle [DecidableEq α] (rootG : WinGeom) (l : OnSetHandlerList α)
    (st : PaintState) (dst src : α) : PaintState × α :=
  if dst = src then (st, dst)
  else
    match l with
    | .nil => (st, src)
    | .node h _ =>
      let r := h (BeginUpdate st) dst src
      (EndUpdate rootG r.1, r.2)

/-- Window.onSetOriginHandler (window.go), the default and only handler
installed on onSetOrigin by newWindow: invalidates the client area
(with the old origin still in place) and then performs the
assignment. -/
def onSetOriginHandler (rootG : WinGeom) (w : WinPath) (st : PaintState)
    (_dst src : Position) : PaintState × Position :=
  (Invalidate rootG w w.geom.clientArea st, src)

/-- Window.SetOrigin (window.go): clamps both components of the
requested origin to be non-negative and hands the result to the
onSetOrigin chain; on a fresh window that chain holds exactly the
default handler. -/
def SetOrigin (rootG : WinGeom) (w : WinPath) (st : PaintState) (view p : Position) :
    PaintState × Position :=
  OnSetHandlerList.Handle rootG
    (OnSetHandlerList.node (onSetOriginHandler rootG w) OnSetHandlerList.nil)
    st view ⟨max p.X 0, max p.Y 0⟩

/-- The mouse button FSM states (mouse.go): mbsIdle, mbsDown, mbsUp,
mbsDown2, mbsDrag. -/
inductive MBState where
  | mbsIdle
  | mbsDown
  | mbsUp
  | mbsDown2
  | mbsDrag
deriving DecidableEq, Repr

/-- The timing configuration the FSM consults: App.ClickDuration() and
App.DoubleClickDuration() (time.Duration, nanoseconds). -/
structure MBConfig where
  clickDuration : Int
  doubleClickDuration : Int
deriving DecidableEq, Repr

/-- One per-button FSM instance (mouseButtonFSM, mouse.go): current
state, the modifiers and position recorded at the press, and whether the
timeout channel can still fire (time.After arms it; receiving from it or
assigning nil disarms it). -/
structure MouseButtonFSM where
  state : MBState
  mods : Int
  pos : Position
  timeoutArmed : Bool
deriving DecidableEq, Repr

/-- One input consumed by mouseButtonFSM.run: a raw mouse event whose
button bit for this instance is down (e.Buttons() & m.button != 0) or up,
with screen position and modifiers -- or the expiry of the armed
timer. -/
inductive MBInput where
  | mouse (down : Bool) (pos : Position) (mods : Int)
  | timeout
deriving DecidableEq, Repr

/-- The synthetic gesture events the FSM posts into the event queue
(newEventMouse with kinds mouseClick, mouseDoubleClick, mouseDrag,
mouseDrop). -/
inductive MBEmit where
  | click (mods : Int) (pos : Position)
  | doubleClick (mods : Int) (pos : Position)
  | drag (mods : Int) (pos : Position)
  | drop (mods : Int) (pos : Position)
deriving DecidableEq, Repr

/-- One iteration of the mouseButtonFSM.run select loop (mouse.go),
translated case by case; returns the successor instance and the list of
posted events. -/
def mbStep (cfg : MBConfig) (m : MouseButtonFSM) (i : MBInput) :
    MouseButtonFSM × List MBEmit :=
  match m.state with
  | .mbsIdle =>
    match i with
    | .mouse false _ _ => (m, [])
    | .mouse true p mods =>
      ({ m with mods := mods, pos := p, timeoutArmed := true, state := .mbsDown }, [])
    | .timeout => ({ m with timeoutArmed := false }, [])
  | .mbsDown =>
    match i with
    | .mouse false _ _ =>
      if cfg.doubleClickDuration ≠ 0 then
        ({ m with timeoutArmed := true, state := .mbsUp }, [])
      else
        ({ m with state := .mbsIdle, timeoutArmed := false }, [.click m.mods m.pos])
    | .mouse true _ _ => ({ m with state := .mbsIdle }, [])
    | .timeout =>
      ({ m with state := .mbsDrag, timeoutArmed := false }, [.drag m.mods m.pos])
  | .mbsUp =>
    match i with
    | .mouse false _ _ => ({ m with state := .mbsIdle }, [])
    | .mouse true _ _ =>
      ({ m with state := .mbsDown2 }, [.doubleClick m.mods m.pos])
    | .timeout =>
      ({ m with state := .mbsIdle, timeoutArmed := false }, [.click m.mods m.pos])
  | .mbsDown2 =>
    match i with
    | .mouse false _ _ => ({ m with state := .mbsIdle }, [])
    | .mouse true _ _ => ({ m with state := .mbsIdle }, [])
    | .timeout => ({ m with timeoutArmed := false }, [])
  | .mbsDrag =>
    match i with
    | .mouse false p mods =>
      ({ m with state := .mbsIdle, timeoutArmed := false }, [.drop mods p])
    | .mouse true _ _ => ({ m with state := .mbsIdle }, [])
    | .timeout => ({ m with timeoutArmed := false }, [])

/-- Feeds a list of inputs through the FSM, collecting all posted
events in order. -/
def mbRun (cfg : MBConfig) (m : MouseButtonFSM) : List MBInput → MouseButtonFSM × List MBEmit
  | [] => (m, [])
  | i :: rest =>
    let r := mbStep cfg m i
    let r2 := mbRun cfg r.1 rest
    (r2.1, r.2 ++ r2.2)

/-- A window tree node as hit testing sees it (window.go): client area
and viewport origin of the node, its parent-relative position and size
(used when the PARENT tests children), and the ordered child list
(index 0 at the back, last element frontmost). -/
inductive WinTree where
  | node (clientArea : Rectangle) (view : Position) (position : Position)
      (size : Size) (children : List WinTree)

/-- The node's client area. -/
def WinTree.clientArea : WinTree → Rectangle
  | .node c _ _ _ _ => c

/-- The node's viewport origin (w.view). -/
def WinTree.view : WinTree → Position
  | .node _ v _ _ _ => v

/-- The node's parent-relative position. -/
def WinTree.position : WinTree → Position
  | .node _ _ p _ _ => p

/-- The node's size. -/
def WinTree.size : WinTree → Size
  | .node _ _ _ s _ => s

/-- The node's children in z-order. -/
def WinTree.children : WinTree → List WinTree
  | .node _ _ _ _ cs => cs

mutual

/-- Window.findEventTarget (window.go): if the point is outside the
client area the window itself with the untranslated point is the target
for the border handler; otherwise the point is shifted by the viewport
origin and rebased to the client area, the children are scanned from
the front of the z-order, and the search descends into the first child
whose rectangle (position, size) contains the point, rebasing the point
into that child; if no child matches, the window itself with the
rebased point is the target for the client-area handler.  The Bool is
true for the client-area handler and false for the border handler. -/
def findEventTarget (w : WinTree) (winPos : Position) : WinTree × Position × Bool :=
  match w with
  | .node clArea view _ _ children =>
    let winPos2 := winPos.add view
    if clArea.Has winPos then
      let wp := winPos2.sub clArea.pos
      match findChild children wp with
      | some r => r
      | none => (w, wp, true)
    else (w, winPos, false)

/-- The loop over w.children in findEventTarget: Go iterates i from
len-1 down to 0 and descends into the first hit, so here the tail of
the list (the more frontmost windows) is consulted before the head. -/
def findChild (l : List WinTree) (wp : Position) : Option (WinTree × Position × Bool) :=
  match l with
  | [] => none
  | ch :: rest =>
    match findChild rest wp with
    | some r => some r
    | none =>
      if (Rectangle.mk ch.position ch.size).Has wp then
        some (findEventTarget ch (wp.sub ch.position))
      else none

end

/-- The frontmost child whose rectangle contains the point: the child
the search descends into. -/
def topHit (l : List WinTree) (wp : Position) : Option WinTree :=
  match l with
  | [] => none
  | ch :: rest =>
    match topHit rest wp with
    | some c => some c
    | none =>
      if (Rectangle.mk ch.position ch.size).Has wp then some ch else none

/-- The termination-related state of an Application (application.go):
the three sync.Once guards (onceFinalize, onceExit, onceWait), the
buffered error channel a.wait (capacity 1), whether a Wait caller is
currently blocked inside the onceWait body on an empty channel, and
counters for the three core actions: screen.Fini calls, sends into
a.wait, and receives from a.wait.  Errors are modelled as Option String
(nil = none). -/
structure TermState where
  finalized : Bool
  exited : Bool
  waited : Bool
  waitChan : Option (Option String)
  pendingWait : Bool
  finiCount : Nat
  sendCount : Nat
  recvCount : Nat
  received : Option (Option String)
deriving DecidableEq, Repr

/-- The initial state: fresh Application. -/
def initTermState : TermState := ⟨false, false, false, none, false, 0, 0, 0, none⟩

/-- The three operations a caller may invoke, in any order and number:
Application.Exit(err), Application.finalize (screen release), and
Application.Wait. -/
inductive TermOp where
  | exit (e : Option String)
  | finalize
  | wait
deriving DecidableEq, Repr

/-- Application.finalize: a.onceFinalize.Do(func() { a.screen.Fini() }). -/
def finalizeStep (st : TermState) : TermState :=
  if st.finalized then st
  else { st with finalized := true, finiCount := st.finiCount + 1 }

/-- Application.Exit(err): a.finalize(); a.onceExit.Do(func() { a.wait
<- err }).  The send to the capacity-1 channel hands the value straight
to a blocked Wait caller when there is one. -/
def exitStep (st : TermState) (e : Option String) : TermState :=
  let st1 := finalizeStep st
  if st1.exited then st1
  else if st1.pendingWait then
    { st1 with
        exited := true, sendCount := st1.sendCount + 1,
        recvCount := st1.recvCount + 1, received := some e, pendingWait := false }
  else
    { st1 with exited := true, sendCount := st1.sendCount + 1, waitChan := some e }

/-- Application.Wait: err := a.exitError; a.onceWait.Do(func() { err =
<-a.wait }); return err.  A repeated call skips the once body and
returns the never-assigned a.exitError (nil); the first call receives
from the channel, blocking while it is empty. -/
def waitStep (st : TermState) : TermState :=
  if st.waited then st
  else
    match st.waitChan with
    | some e =>
      { st with
          waited := true, recvCount := st.recvCount + 1,
          received := some e, waitChan := none }
    | none => { st with waited := true, pendingWait := true }

/-- Runs one termination operation. -/
def termStep (st : TermState) : TermOp → TermState
  | .exit e => exitStep st e
  | .finalize => finalizeStep st
  | .wait => waitStep st

/-- Runs a sequence of termination operations from the fresh state. -/
def runTerm (ops : List TermOp) : TermState :=
  ops.foldl termStep initTermState

/-- The error of the first Exit call in the sequence, if any. -/
def firstExitErr : List TermOp → Option (Option String)
  | [] => none
  | .exit e :: _ => some e
  | _ :: rest => firstExitErr rest

/-- Whether the sequence contains a Wait call. -/
def hasWaitOp : List TermOp → Bool
  | [] => false
  | .wait :: _ => true
  | _ :: rest => hasWaitOp rest

/-- How one operation advances the first-exit-error summary of a
prefix. -/
def stepFe (fe : Option (Option String)) (op : TermOp) : Option (Option String) :=
  match fe, op with
  | some x, _ => some x
  | none, .exit e => some e
  | none, _ => none

/-- How one operation advances the contains-a-wait summary of a
prefix. -/
def stepHw (hw : Bool) (op : TermOp) : Bool :=
  match op with
  | .wait => true
  | _ => hw

/-- Invariant tying a TermState to the summary of the operations
processed so far: fe is the first Exit error (if any Exit was
processed), hw records whether a Wait was processed.  It pins down the
once-guards, the channel content, and all three action counters. -/
def TermInv (fe : Option (Option String)) (hw : Bool) (st : TermState) : Prop :=
  st.finiCount = (if st.finalized then 1 else 0) ∧
  st.sendCount = (if st.exited then 1 else 0) ∧
  st.waited = hw ∧
  (match fe with
   | none =>
     st.exited = false ∧ st.waitChan = none ∧ st.recvCount = 0 ∧
     st.received = none ∧ st.pendingWait = hw
   | some e0 =>
     st.exited = true ∧ st.pendingWait = false ∧
     (if hw then
        st.waitChan = none ∧ st.recvCount = 1 ∧ st.received = some e0
      else
        st.waitChan = some e0 ∧ st.recvCount = 0 ∧ st.received = none))

/-- The size-related fields of one Window (window.go) read and written
by the SetSize/SetClientSize handler pair: the stored window size, the
stored client-area size (w.clientArea.Size), the four border widths,
and whether the window has a parent (the exported SetSize is a no-op on
a root window). -/
structure WinSz where
  size : Size
  clientSize : Size
  borderLeft : Int
  borderRight : Int
  borderTop : Int
  borderBottom : Int
  hasParent : Bool
deriving DecidableEq, Repr

mutual

/-- w.setSize, i.e. onSetSize.Handle(w, &w.size, s) with the default
onSetSizeHandler installed by newWindow (window.go): no-op when the
stored size already equals the request; otherwise the request is
clamped to non-negative components, stored, the client size is derived
from the borders and passed to SetClientSize.  The handler's Invalidate
calls touch only the paint state and are omitted here.  Fuel bounds the
(actually finite) mutual recursion; none means fuel ran out. -/
def setSizeHandleF : Nat → WinSz → Size → Option WinSz
  | 0, _, _ => none
  | fuel + 1, w, s =>
    if w.size = s then some w
    else
      let s1 : Size := ⟨max 0 s.Width, max 0 s.Height⟩
      let w1 : WinSz := { w with size := s1 }
      let csz : Size := ⟨max 0 (s1.Width - (w1.borderLeft + w1.borderRight)),
                         max 0 (s1.Height - (w1.borderTop + w1.borderBottom))⟩
      setClientSizeHandleF fuel w1 csz

/-- Window.SetClientSize, i.e. onSetClientSize.Handle(w,
&w.clientArea.Size, s) with the default onSetClientSizeHandler
(window.go): no-op when equal; otherwise clamp, store, recompute the
window size from the borders and pass it to the exported SetSize. -/
def setClientSizeHandleF : Nat → WinSz → Size → Option WinSz
  | 0, _, _ => none
  | fuel + 1, w, s =>
    if w.clientSize = s then some w
    else
      let s1 : Size := ⟨max 0 s.Width, max 0 s.Height⟩
      let w1 : WinSz := { w with clientSize := s1 }
      let wsz : Size := ⟨w1.borderLeft + s1.Width + w1.borderRight,
                         w1.borderTop + s1.Height + w1.borderBottom⟩
      SetSizeF fuel w1 wsz

/-- Window.SetSize (window.go): if w.parent != nil { w.setSize(s) } --
a no-op on the root window. -/
def SetSizeF : Nat → WinSz → Size → Option WinSz
  | 0, _, _ => none
  | fuel + 1, w, s => if w.hasParent then setSizeHandleF fuel w s else some w

end

/-- The claimed relation between a window's stored size and its stored
client-area size. -/
def szInv (w : WinSz) : Prop :=
  w.clientSize.Width = max 0 (w.size.Width - (w.borderLeft + w.borderRight)) ∧
  w.clientSize.Height = max 0 (w.size.Height - (w.borderTop + w.borderBottom))

/-- Non-negativity of the stored window and client sizes. -/
def szNonneg (w : WinSz) : Prop :=
  0 ≤ w.size.Width ∧ 0 ≤ w.size.Height ∧
  0 ≤ w.clientSize.Width ∧ 0 ≤ w.clientSize.Height

/-- PaintContext (handler.go): the embedded Rectangle plus the origin
and view fields passed to every paint handler. -/
structure PaintContext where
  rect : Rectangle
  origin : Position
  view : Position
deriving DecidableEq, Repr

/-- closeButtonOffset (window.go): X coordinate of the close button
relative to the right edge of the top border. -/
def closeButtonOffset : Int := 4

/-- Window.Area (window.go): Rectangle{Size: w.size}. -/
def WinGeom.Area (g : WinGeom) : Rectangle := ⟨⟨0, 0⟩, g.size⟩

/-- Window.BorderTopArea (window.go). -/
def WinGeom.BorderTopArea (g : WinGeom) : Rectangle :=
  ⟨⟨0, 0⟩, ⟨g.size.Width, g.borderTop⟩⟩

/-- Window.BorderLeftArea (window.go). -/
def WinGeom.BorderLeftArea (g : WinGeom) : Rectangle :=
  ⟨⟨0, 0⟩, ⟨g.borderLeft, g.size.Height⟩⟩

/-- Window.BorderRightArea (window.go). -/
def WinGeom.BorderRightArea (g : WinGeom) : Rectangle :=
  ⟨⟨g.size.Width - g.borderRight, 0⟩, ⟨g.borderRight, g.size.Height⟩⟩

/-- Window.BorderBottomArea (window.go). -/
def WinGeom.BorderBottomArea (g : WinGeom) : Rectangle :=
  ⟨⟨0, g.size.Height - g.borderBottom⟩, ⟨g.size.Width, g.borderBottom⟩⟩

/-- The nine paint stages invoked, in order, by the rendering part of
Window.paint. -/
inductive PaintStage where
  | clearBorders
  | paintBorderTop
  | paintTitle
  | paintBorderLeft
  | clearClientArea
  | paintClientArea
  | paintChildren
  | paintBorderRight
  | paintBorderBottom
deriving DecidableEq, Repr

/-- The rendering part of Window.paint (window.go, the code after the
deferral branch): each stage area is clipped against the dirty area and,
when the clip is non-empty, the corresponding handler chain is invoked
with PaintContext{a, a0.Position, ...}; the client-area content stage
additionally shifts the rectangle by the viewport origin and passes it
as the view.  The Handle guard (nil list / zero context) never fires
here: the default chains are installed by newWindow and Clip never
returns a zero rectangle.  The caller passes the area already clipped
to the window (as Window.paint's entry guard and EndUpdate do). -/
def paintStages (w : WinGeom) (area : Rectangle) : List (PaintStage × PaintContext) :=
  (match w.Area.Clip area with
   | some a => [(.clearBorders, ⟨a, w.Area.pos, ⟨0, 0⟩⟩)]
   | none => []) ++
  (match w.BorderTopArea.Clip area with
   | some a => [(.paintBorderTop, ⟨a, w.BorderTopArea.pos, ⟨0, 0⟩⟩)]
   | none => []) ++
  (if w.BorderTopArea.IsZero = false ∧ w.title ≠ "" then
    let t0 := w.BorderTopArea
    let t1 : Rectangle :=
      ⟨⟨t0.X + 1, t0.Y⟩,
       ⟨t0.Width - 1 - (if w.closeButton then closeButtonOffset else 0), 1⟩⟩
    match t1.Clip area with
    | some a => [(.paintTitle, ⟨a, t1.pos, ⟨0, 0⟩⟩)]
    | none => []
   else []) ++
  (match w.BorderLeftArea.Clip area with
   | some a => [(.paintBorderLeft, ⟨a, w.BorderLeftArea.pos, ⟨0, 0⟩⟩)]
   | none => []) ++
  (match w.clientArea.Clip area with
   | some a => [(.clearClientArea, ⟨a, w.clientArea.pos, ⟨0, 0⟩⟩)]
   | none => []) ++
  (match w.clientArea.Clip area with
   | some a =>
     [(.paintClientArea, ⟨⟨a.pos.add w.view, a.size⟩, w.clientArea.pos, w.view⟩),
      (.paintChildren, ⟨⟨a.pos.add w.view, a.size⟩, w.clientArea.pos, w.view⟩)]
   | none => []) ++
  (match w.BorderRightArea.Clip area with
   | some a => [(.paintBorderRight, ⟨a, w.BorderRightArea.pos, ⟨0, 0⟩⟩)]
   | none => []) ++
  (match w.BorderBottomArea.Clip area with
   | some a => [(.paintBorderBottom, ⟨a, w.BorderBottomArea.pos, ⟨0, 0⟩⟩)]
   | none => [])

/-- State after N nested BeginUpdate calls followed by a list of
invalidation requests. -/
def nestedRun (rootG : WinGeom) (st0 : PaintState) (N : ℕ) (qs : List InvalRequest) :
    PaintState :=
  runRequests rootG (BeginUpdate^[N] st0) qs

/-- State after additionally k matching EndUpdate calls. -/
def nestedEnd (rootG : WinGeom) (st0 : PaintState) (N : ℕ) (qs : List InvalRequest)
    (k : ℕ) : PaintState :=
  (EndUpdate rootG)^[k] (nestedRun rootG st0 N qs)

end WM

namespace WM

/-- C1: the Join operation does NOT compute the bounding union claimed by
the spec and by TestJoin.  Because Rectangle.join assigns r.X = min(...)
before computing r.Width = max(r.X+r.Width, s.X+s.Width) - r.X, the old
right extent 46+55 = 101 is read as 45+55 = 100 whenever the origin
moves left.  At the test input {46,12,55,27}.join({45,12,55,27}) the code
produces {45,12,55,27}, while TestJoin (all_test.go) demands
{45,12,56,27}; in the other operand order the origin does not move and
the expected {45,12,56,27} comes out. -/
theorem C1_join_code_bug :
    Rectangle.join ⟨⟨46, 12⟩, ⟨55, 27⟩⟩ ⟨⟨45, 12⟩, ⟨55, 27⟩⟩ = ⟨⟨45, 12⟩, ⟨55, 27⟩⟩ ∧
    Rectangle.join ⟨⟨46, 12⟩, ⟨55, 27⟩⟩ ⟨⟨45, 12⟩, ⟨55, 27⟩⟩ ≠ ⟨⟨45, 12⟩, ⟨56, 27⟩⟩ ∧
    Rectangle.join ⟨⟨45, 12⟩, ⟨55, 27⟩⟩ ⟨⟨46, 12⟩, ⟨55, 27⟩⟩ = ⟨⟨45, 12⟩, ⟨56, 27⟩⟩ := by
  refine ⟨by decide, by decide, by decide⟩

/-- Case analysis for Clip: exactly which value it returns, as a single
if-then-else over the two axis conditions. -/
theorem Rectangle.clip_cases (r s : Rectangle) :
    Rectangle.Clip r s =
      if min (r.X + r.Width) (s.X + s.Width) ≤ max r.X s.X then none
      else if min (r.Y + r.Height) (s.Y + s.Height) ≤ max r.Y s.Y then none
      else some ⟨⟨max r.X s.X, max r.Y s.Y⟩,
        ⟨min (r.X + r.Width) (s.X + s.Width) - max r.X s.X,
         min (r.Y + r.Height) (s.Y + s.Height) - max r.Y s.Y⟩⟩ := by
  by_cases h1 : min (r.X + r.Width) (s.X + s.Width) ≤ max r.X s.X
  · simp [Rectangle.Clip, intervalIntersectLC, h1]
  · by_cases h2 : min (r.Y + r.Height) (s.Y + s.Height) ≤ max r.Y s.Y
    · simp [Rectangle.Clip, intervalIntersectLC, h1, h2]
    · simp [Rectangle.Clip, intervalIntersectLC, h1, h2]

/-- C7: Rectangle.Clip is a per-axis half-open intersection: it returns
none (Go: false) exactly when no point lies in both rectangles; when it
returns some t (Go: true, receiver set to t), t contains exactly the
common points of the two operands -- the minimal common rectangle -- and
t is of non-zero size; and the boolean result is symmetric in the
operands. -/
theorem C7_clip_intersection (r s : Rectangle) :
    ((Rectangle.Clip r s).isSome = (Rectangle.Clip s r).isSome) ∧
    (Rectangle.Clip r s = none ↔ ∀ p, ¬(r.Has p = true ∧ s.Has p = true)) ∧
    (∀ t, Rectangle.Clip r s = some t →
      (∀ p, t.Has p = (r.Has p && s.Has p)) ∧ t.IsZero = false) := by
  rw [Rectangle.clip_cases r s, Rectangle.clip_cases s r]
  by_cases h1 : min (r.X + r.Width) (s.X + s.Width) ≤ max r.X s.X
  · have h1x : min (s.X + s.Width) (r.X + r.Width) ≤ max s.X r.X := by omega
    refine ⟨by simp [h1, h1x], ⟨fun _ p hp => ?_, fun _ => by simp [h1]⟩, fun t ht => ?_⟩
    · simp only [Rectangle.Has, Bool.and_eq_true, decide_eq_true_eq] at hp
      omega
    · simp [h1] at ht
  · by_cases h2 : min (r.Y + r.Height) (s.Y + s.Height) ≤ max r.Y s.Y
    · have h1x : ¬min (s.X + s.Width) (r.X + r.Width) ≤ max s.X r.X := by omega
      have h2x : min (s.Y + s.Height) (r.Y + r.Height) ≤ max s.Y r.Y := by omega
      refine ⟨by simp [h1, h2, h1x, h2x], ⟨fun _ p hp => ?_, fun _ => by simp [h1, h2]⟩,
        fun t ht => ?_⟩
      · simp only [Rectangle.Has, Bool.and_eq_true, decide_eq_true_eq] at hp
        omega
      · simp [h1, h2] at ht
    · have h1x : ¬min (s.X + s.Width) (r.X + r.Width) ≤ max s.X r.X := by omega
      have h2x : ¬min (s.Y + s.Height) (r.Y + r.Height) ≤ max s.Y r.Y := by omega
      refine ⟨by simp [h1, h2, h1x, h2x], ⟨?_, fun hall => ?_⟩, fun t ht => ?_⟩
      · intro h
        simp [h1, h2] at h
      · exfalso
        refine hall ⟨max r.X s.X, max r.Y s.Y⟩ ⟨?_, ?_⟩ <;>
          · simp only [Rectangle.Has, Bool.and_eq_true, decide_eq_true_eq]
            omega
      · simp only [h1, h2, if_false, Option.some_inj] at ht
        subst ht
        refine ⟨fun p => ?_, ?_⟩
        · simp only [Rectangle.Has, Rectangle.X, Rectangle.Y, Rectangle.Width, Rectangle.Height]
          rw [Bool.eq_iff_iff]
          simp only [Bool.and_eq_true, decide_eq_true_eq]
          constructor <;> intro h <;> omega
        · simp only [Rectangle.IsZero, Size.IsZero, Bool.or_eq_false_iff,
            decide_eq_false_iff_not]
          omega

/-- A successful Clip result is non-zero and lies inside the second
operand. -/
theorem clip_some_bounds {r s t : Rectangle} (h : Rectangle.Clip r s = some t) :
    t.IsZero = false ∧ s.X ≤ t.X ∧ t.X + t.Width ≤ s.X + s.Width ∧
    s.Y ≤ t.Y ∧ t.Y + t.Height ≤ s.Y + s.Height := by
  rw [Rectangle.clip_cases] at h
  split at h
  · exact absurd h (by simp)
  · split at h
    · exact absurd h (by simp)
    · rename_i h1 h2
      have ht : t = ⟨⟨max r.X s.X, max r.Y s.Y⟩,
          ⟨min (r.X + r.Width) (s.X + s.Width) - max r.X s.X,
           min (r.Y + r.Height) (s.Y + s.Height) - max r.Y s.Y⟩⟩ := by
        exact (Option.some_inj.mp h).symm
      subst ht
      simp only [Rectangle.IsZero, Size.IsZero, Rectangle.X, Rectangle.Y,
        Rectangle.Width, Rectangle.Height, Bool.or_eq_false_iff,
        decide_eq_false_iff_not] at h1 h2 ⊢
      refine ⟨⟨?_, ?_⟩, ?_, ?_, ?_, ?_⟩ <;> omega

/-- A non-zero rectangle already inside the clip target clips to
itself. -/
theorem clip_inside {t s : Rectangle} (hz : t.IsZero = false)
    (hx1 : s.X ≤ t.X) (hx2 : t.X + t.Width ≤ s.X + s.Width)
    (hy1 : s.Y ≤ t.Y) (hy2 : t.Y + t.Height ≤ s.Y + s.Height) :
    Rectangle.Clip t s = some t := by
  simp only [Rectangle.IsZero, Size.IsZero, Bool.or_eq_false_iff,
    decide_eq_false_iff_not] at hz
  have hz2 : 0 < t.Width ∧ 0 < t.Height := by
    simp only [Rectangle.Width, Rectangle.Height]
    omega
  rw [Rectangle.clip_cases, if_neg (by omega), if_neg (by omega)]
  have e1 : max t.X s.X = t.X := by omega
  have e2 : min (t.X + t.Width) (s.X + s.Width) = t.X + t.Width := by omega
  have e3 : max t.Y s.Y = t.Y := by omega
  have e4 : min (t.Y + t.Height) (s.Y + s.Height) = t.Y + t.Height := by omega
  rw [e1, e2, e3, e4]
  obtain ⟨⟨tx, ty⟩, ⟨tw, th⟩⟩ := t
  simp [Rectangle.X, Rectangle.Y, Rectangle.Width, Rectangle.Height]

/-- Clipping is idempotent on its own successful result. -/
theorem clip_clip {r s t : Rectangle} (h : Rectangle.Clip r s = some t) :
    Rectangle.Clip t s = some t := by
  obtain ⟨hz, hx1, hx2, hy1, hy2⟩ := clip_some_bounds h
  exact clip_inside hz hx1 hx2 hy1 hy2

/-- N BeginUpdate calls from a quiescent desktop leave the counter at N
with a reset accumulator. -/
theorem beginUpdate_iterate (st : PaintState) (h0 : st.updateLevel = 0) :
    ∀ n : ℕ, 1 ≤ n →
      BeginUpdate^[n] st = { st with updateLevel := (n : Int), invalidated := zeroRect } := by
  intro n hn
  induction n with
  | zero => omega
  | succ m ih =>
    rw [Function.iterate_succ_apply']
    by_cases hm : 1 ≤ m
    · rw [ih hm]
      unfold BeginUpdate
      rw [if_neg (by simp; omega)]
      simp only [PaintState.mk.injEq, and_true, true_and]
      push_cast
      ring
    · have hm0 : m = 0 := by omega
      subst hm0
      simp only [Function.iterate_zero_apply]
      unfold BeginUpdate
      rw [if_pos (by simp [h0])]
      simp [h0]

/-- While the desktop counter is at least one, a single invalidation
request only unions its root-coordinate contribution (if any) into the
accumulator: no painting, no flushing, no counter change. -/
theorem runRequest_nested (rootG : WinGeom) (st : PaintState) (q : InvalRequest)
    (h : 1 ≤ st.updateLevel) :
    runRequest rootG st q =
      { st with invalidated := joinContribution st.invalidated q } := by
  obtain ⟨w, area, via⟩ := q
  have hL1 : ¬(st.updateLevel + 1 = 1) := by omega
  have hL0 : st.updateLevel + 1 ≠ 0 := by omega
  have hLe : ¬(st.updateLevel + 1 - 1 = 0) := by omega
  have hLz : ¬(st.updateLevel = 0) := by omega
  cases via with
  | false =>
    cases hc : area.Clip ⟨⟨0, 0⟩, w.geom.size⟩ with
    | none =>
      simp [runRequest, Invalidate, joinContribution, requestRootArea, hc]
    | some a =>
      have hz := (clip_some_bounds hc).1
      have hidem := clip_clip hc
      cases hd : paintDefer w a with
      | none =>
        simp [runRequest, Invalidate, joinContribution, requestRootArea, Window.paintOp, BeginUpdate,
          EndUpdate, hc, hidem, hz, hd, hL1, hL0, hLe, hLz]
      | some ra =>
        simp [runRequest, Invalidate, joinContribution, requestRootArea, Window.paintOp, BeginUpdate,
          EndUpdate, hc, hidem, hz, hd, hL1, hL0, hLe, hLz]
  | true =>
    cases hc : (Rectangle.mk ((area.pos.add w.geom.clientArea.pos).sub w.geom.view)
        area.size).Clip w.geom.clientArea with
    | none =>
      simp [runRequest, InvalidateClientArea, joinContribution, requestRootArea, hc]
    | some a =>
      have hz := (clip_some_bounds hc).1
      cases hc2 : a.Clip ⟨⟨0, 0⟩, w.geom.size⟩ with
      | none =>
        simp [runRequest, InvalidateClientArea, joinContribution, requestRootArea, Window.paintOp,
          BeginUpdate, EndUpdate, hc, hc2, hz, hL1, hL0, hLe, hLz]
      | some a2 =>
        cases hd : paintDefer w a2 with
        | none =>
          simp [runRequest, InvalidateClientArea, joinContribution, requestRootArea, Window.paintOp,
            BeginUpdate, EndUpdate, hc, hc2, hz, hd, hL1, hL0, hLe, hLz]
        | some ra =>
          simp [runRequest, InvalidateClientArea, joinContribution, requestRootArea, Window.paintOp,
            BeginUpdate, EndUpdate, hc, hc2, hz, hd, hL1, hL0, hLe, hLz]

/-- Folding a list of requests while nested only accumulates: painted
and flush traces and the counter are untouched. -/
theorem runRequests_nested (rootG : WinGeom) (qs : List InvalRequest) :
    ∀ st : PaintState, 1 ≤ st.updateLevel →
      runRequests rootG st qs =
        { st with invalidated := qs.foldl joinContribution st.invalidated } := by
  induction qs with
  | nil =>
    intro st h
    simp [runRequests]
  | cons q rest ih =>
    intro st h
    have hstep := runRequest_nested rootG st q h
    calc runRequests rootG st (q :: rest)
        = runRequests rootG (runRequest rootG st q) rest := by
          simp [runRequests]
      _ = _ := by
          rw [hstep, ih _ (by simpa using h)]
          simp

/-- The first k EndUpdate calls, while the counter stays above one,
only decrement it. -/
theorem endUpdate_iterate_partial (rootG : WinGeom) :
    ∀ (k : ℕ) (st : PaintState), (k : Int) ≤ st.updateLevel - 1 →
      (EndUpdate rootG)^[k] st = { st with updateLevel := st.updateLevel - k } := by
  intro k
  induction k with
  | zero =>
    intro st h
    simp
  | succ m ih =>
    intro st h
    rw [Function.iterate_succ_apply]
    have hne : ¬(st.updateLevel - 1 = 0 ∧ st.invalidated.IsZero = false) := by
      intro hx
      omega
    have hE : EndUpdate rootG st = { st with updateLevel := st.updateLevel - 1 } := by
      unfold EndUpdate
      rw [if_neg hne]
    rw [hE, ih _ (by simpa using by push_cast at h ⊢; omega)]
    simp only [PaintState.mk.injEq, and_true, true_and]
    push_cast
    ring

/-- The outermost EndUpdate with an empty accumulator: the counter
returns to zero and nothing is painted or flushed. -/
theorem endUpdate_noflush (rootG : WinGeom) (st : PaintState)
    (h1 : st.updateLevel = 1) (hz : st.invalidated.IsZero = true) :
    EndUpdate rootG st = { st with updateLevel := 0 } := by
  obtain ⟨ul, inv, aul, pt, fl⟩ := st
  simp only at h1 hz
  subst h1
  unfold EndUpdate
  rw [if_neg (by simp [hz])]
  norm_num

/-- The outermost EndUpdate with a non-empty accumulator: the counter
returns to zero, the accumulated region (clipped to the root window) is
painted, and the backend is flushed once. -/
theorem endUpdate_flush (rootG : WinGeom) (st : PaintState)
    (h1 : st.updateLevel = 1) (ha : st.appUpdateLevel = 0)
    (hz : st.invalidated.IsZero = false) :
    EndUpdate rootG st =
      { st with
          updateLevel := 0,
          painted := st.painted ++
            (match st.invalidated.Clip ⟨⟨0, 0⟩, rootG.size⟩ with
             | none => [] | some a => [a]),
          flushes := st.flushes + 1 } := by
  obtain ⟨ul, inv, aul, pt, fl⟩ := st
  simp only at h1 ha hz
  subst h1
  subst ha
  unfold EndUpdate
  rw [if_pos (by exact ⟨by norm_num, hz⟩)]
  unfold appBeginUpdate Window.paintOp appEndUpdate
  simp only [WinPath.geom, hz, Bool.false_eq_true, if_false]
  cases hcl : inv.Clip ⟨⟨0, 0⟩, rootG.size⟩ with
  | none => simp
  | some aA => simp

/-- C3: for every N at least 1, after N nested BeginUpdate calls every
intervening Invalidate/InvalidateClientArea request is only accumulated
-- its area translated into root coordinates and joined into the
desktop's invalidation rectangle -- painting nothing and flushing
nothing; each of the first N-1 matching EndUpdate calls also paints
nothing and does not flush, and only the N-th EndUpdate, which returns
the desktop counter to zero, paints the accumulated region (clipped to
the root window) and flushes the backend, exactly when that region is
non-zero. -/
theorem C3_nested_update_deferral (rootG : WinGeom) (st0 : PaintState) (N : ℕ)
    (hN : 1 ≤ N) (h0 : st0.updateLevel = 0) (ha : st0.appUpdateLevel = 0)
    (qs : List InvalRequest) :
    ((nestedRun rootG st0 N qs).painted = st0.painted ∧
     (nestedRun rootG st0 N qs).flushes = st0.flushes ∧
     (nestedRun rootG st0 N qs).updateLevel = (N : Int) ∧
     (nestedRun rootG st0 N qs).invalidated = accumOf qs) ∧
    (∀ k : ℕ, k < N →
      (nestedEnd rootG st0 N qs k).painted = st0.painted ∧
      (nestedEnd rootG st0 N qs k).flushes = st0.flushes ∧
      (nestedEnd rootG st0 N qs k).updateLevel = (N : Int) - k) ∧
    ((nestedEnd rootG st0 N qs N).updateLevel = 0 ∧
     (if (accumOf qs).IsZero = true then
        (nestedEnd rootG st0 N qs N).painted = st0.painted ∧
        (nestedEnd rootG st0 N qs N).flushes = st0.flushes
      else
        (nestedEnd rootG st0 N qs N).flushes = st0.flushes + 1 ∧
        (nestedEnd rootG st0 N qs N).painted = st0.painted ++
          (match (accumOf qs).Clip ⟨⟨0, 0⟩, rootG.size⟩ with
           | none => [] | some a => [a]))) := by
  obtain ⟨M, rfl⟩ : ∃ M, N = M + 1 := ⟨N - 1, by omega⟩
  have hB := beginUpdate_iterate st0 h0 (M + 1) hN
  have hI : nestedRun rootG st0 (M + 1) qs =
      { st0 with updateLevel := ((M + 1 : ℕ) : Int), invalidated := accumOf qs } := by
    unfold nestedRun
    rw [hB, runRequests_nested rootG qs
      { st0 with updateLevel := ((M + 1 : ℕ) : Int), invalidated := zeroRect }
      (by simp)]
    simp [accumOf]
  have hpart : ∀ k : ℕ, (k : Int) ≤ ((M + 1 : ℕ) : Int) - 1 →
      nestedEnd rootG st0 (M + 1) qs k =
        { st0 with updateLevel := ((M + 1 : ℕ) : Int) - k, invalidated := accumOf qs } := by
    intro k hk
    unfold nestedEnd
    rw [hI, endUpdate_iterate_partial rootG k _ (by simpa using hk)]
  refine ⟨by rw [hI]; exact ⟨rfl, rfl, rfl, rfl⟩, fun k hk => ?_, ?_⟩
  · rw [hpart k (by push_cast; omega)]
    exact ⟨rfl, rfl, rfl⟩
  · have hlast : nestedEnd rootG st0 (M + 1) qs (M + 1) =
        EndUpdate rootG (nestedEnd rootG st0 (M + 1) qs M) := by
      unfold nestedEnd
      rw [Function.iterate_succ_apply']
    rw [hlast, hpart M (by push_cast; omega)]
    have h1 : (({ st0 with
        updateLevel := ((M + 1 : ℕ) : Int) - (M : ℕ),
        invalidated := accumOf qs } : PaintState)).updateLevel = 1 := by
      show ((M + 1 : ℕ) : Int) - (M : ℕ) = 1
      push_cast
      ring
    cases hz : (accumOf qs).IsZero with
    | true =>
      rw [endUpdate_noflush rootG _ h1 hz]
      refine ⟨rfl, ?_⟩
      rw [if_pos rfl]
      exact ⟨rfl, rfl⟩
    | false =>
      rw [endUpdate_flush rootG _ h1 ha hz]
      refine ⟨rfl, ?_⟩
      rw [if_neg (by simp)]
      exact ⟨rfl, rfl⟩

/-- C3 witness: an 10x10 root desktop, two nested BeginUpdate calls, one
Invalidate request for {1,1,3,3}: the first EndUpdate does not flush and
leaves the counter at 1; the second returns it to 0 and flushes once,
painting exactly the accumulated rectangle. -/
theorem C3_nested_update_deferral_witness :
    (1 ≤ 2 ∧
      (⟨0, zeroRect, 0, [], 0⟩ : PaintState).updateLevel = 0 ∧
      (⟨0, zeroRect, 0, [], 0⟩ : PaintState).appUpdateLevel = 0) ∧
    (nestedEnd ⟨⟨10, 10⟩, ⟨0, 0⟩, ⟨⟨0, 0⟩, ⟨10, 10⟩⟩, ⟨0, 0⟩, 0, 0, 0, 0, "", false⟩
        ⟨0, zeroRect, 0, [], 0⟩ 2
        [⟨.root ⟨⟨10, 10⟩, ⟨0, 0⟩, ⟨⟨0, 0⟩, ⟨10, 10⟩⟩, ⟨0, 0⟩, 0, 0, 0, 0, "", false⟩,
          ⟨⟨1, 1⟩, ⟨3, 3⟩⟩, false⟩] 1).flushes = 0 ∧
    (nestedEnd ⟨⟨10, 10⟩, ⟨0, 0⟩, ⟨⟨0, 0⟩, ⟨10, 10⟩⟩, ⟨0, 0⟩, 0, 0, 0, 0, "", false⟩
        ⟨0, zeroRect, 0, [], 0⟩ 2
        [⟨.root ⟨⟨10, 10⟩, ⟨0, 0⟩, ⟨⟨0, 0⟩, ⟨10, 10⟩⟩, ⟨0, 0⟩, 0, 0, 0, 0, "", false⟩,
          ⟨⟨1, 1⟩, ⟨3, 3⟩⟩, false⟩] 2).updateLevel = 0 := by
  have h := C3_nested_update_deferral
    ⟨⟨10, 10⟩, ⟨0, 0⟩, ⟨⟨0, 0⟩, ⟨10, 10⟩⟩, ⟨0, 0⟩, 0, 0, 0, 0, "", false⟩
    ⟨0, zeroRect, 0, [], 0⟩ 2 (by decide) rfl rfl
    [⟨.root ⟨⟨10, 10⟩, ⟨0, 0⟩, ⟨⟨0, 0⟩, ⟨10, 10⟩⟩, ⟨0, 0⟩, 0, 0, 0, 0, "", false⟩,
      ⟨⟨1, 1⟩, ⟨3, 3⟩⟩, false⟩]
  exact ⟨⟨by decide, rfl, rfl⟩, (h.2.1 1 (by decide)).2.1, h.2.2.1⟩

/-- C4: for every set-property handler chain, Handle(dst, src) is a
strict no-op when *dst == src -- the head closure is not invoked and the
paint state (hence painting and flushing) is completely untouched; when
*dst != src and the chain is empty it assigns *dst = src directly,
again without touching the paint state; otherwise it delegates to the
chain's head closure, bracketed by BeginUpdate/EndUpdate, and the head
is responsible for the assignment.  Every setter (SetSize, SetPosition,
SetOrigin, SetTitle, SetFocus, border widths, styles, durations, ...)
goes through this Handle, so setting a property to its current value
invokes no handler and repaints nothing. -/
theorem C4_set_property_handle {α : Type} [DecidableEq α] (rootG : WinGeom)
    (l : OnSetHandlerList α) (st : PaintState) (dst src : α) :
    (dst = src → OnSetHandlerList.Handle rootG l st dst src = (st, dst)) ∧
    (dst ≠ src → l = OnSetHandlerList.nil →
      OnSetHandlerList.Handle rootG l st dst src = (st, src)) ∧
    (dst ≠ src → ∀ h prev, l = OnSetHandlerList.node h prev →
      OnSetHandlerList.Handle rootG l st dst src =
        (EndUpdate rootG (h (BeginUpdate st) dst src).1,
         (h (BeginUpdate st) dst src).2)) := by
  refine ⟨fun he => ?_, fun hne hl => ?_, fun hne h prev hl => ?_⟩
  · subst he
    simp [OnSetHandlerList.Handle]
  · subst hl
    simp [OnSetHandlerList.Handle, hne]
  · subst hl
    simp [OnSetHandlerList.Handle, hne]

/-- C4 witness: Handle on an Int property with dst = src = 3 leaves the
state untouched for the empty chain, and assigns directly when the
values differ. -/
theorem C4_set_property_handle_witness :
    (OnSetHandlerList.Handle
        ⟨⟨10, 10⟩, ⟨0, 0⟩, ⟨⟨0, 0⟩, ⟨10, 10⟩⟩, ⟨0, 0⟩, 0, 0, 0, 0, "", false⟩
        (OnSetHandlerList.nil (α := Int)) ⟨0, zeroRect, 0, [], 0⟩ 3 3 =
      (⟨0, zeroRect, 0, [], 0⟩, 3)) ∧
    (OnSetHandlerList.Handle
        ⟨⟨10, 10⟩, ⟨0, 0⟩, ⟨⟨0, 0⟩, ⟨10, 10⟩⟩, ⟨0, 0⟩, 0, 0, 0, 0, "", false⟩
        (OnSetHandlerList.nil (α := Int)) ⟨0, zeroRect, 0, [], 0⟩ 3 7 =
      (⟨0, zeroRect, 0, [], 0⟩, 7)) := by
  refine ⟨?_, ?_⟩
  · exact (C4_set_property_handle
      ⟨⟨10, 10⟩, ⟨0, 0⟩, ⟨⟨0, 0⟩, ⟨10, 10⟩⟩, ⟨0, 0⟩, 0, 0, 0, 0, "", false⟩
      OnSetHandlerList.nil ⟨0, zeroRect, 0, [], 0⟩ 3 3).1 rfl
  · exact (C4_set_property_handle
      ⟨⟨10, 10⟩, ⟨0, 0⟩, ⟨⟨0, 0⟩, ⟨10, 10⟩⟩, ⟨0, 0⟩, 0, 0, 0, 0, "", false⟩
      OnSetHandlerList.nil ⟨0, zeroRect, 0, [], 0⟩ 3 7).2.1 (by decide) rfl

/-- C9: SetOrigin stores the componentwise maximum of the requested
origin and (0,0): whatever the previous viewport origin was, after
SetOrigin(p) the stored origin is (max p.X 0, max p.Y 0), which has
non-negative components. -/
theorem C9_set_origin_clamps (rootG : WinGeom) (w : WinPath) (st : PaintState)
    (view p : Position) :
    (SetOrigin rootG w st view p).2 = ⟨max p.X 0, max p.Y 0⟩ ∧
    0 ≤ (SetOrigin rootG w st view p).2.X ∧
    0 ≤ (SetOrigin rootG w st view p).2.Y := by
  have hmain : (SetOrigin rootG w st view p).2 = ⟨max p.X 0, max p.Y 0⟩ := by
    unfold SetOrigin OnSetHandlerList.Handle
    by_cases he : view = (⟨max p.X 0, max p.Y 0⟩ : Position)
    · simp [he]
    · simp [he, onSetOriginHandler]
  refine ⟨hmain, ?_, ?_⟩ <;> rw [hmain]
  · exact le_max_right p.X 0
  · exact le_max_right p.Y 0

/-- C5: from Idle, a press followed by a release before any timeout
fires emits, when the double-click duration is 0, exactly one click at
the press position and returns to Idle; when the double-click duration
is non-zero it arms the double-click timer and moves to Up emitting
nothing; from Up a second press before the timeout emits exactly one
double-click (at the original press position) and moves to Down2, whose
eventual release emits nothing further; and a rapid third press while
still in Down2 is absorbed: it emits nothing and cannot start a new
click cycle (the FSM falls back to Idle without recording a new
press). -/
theorem C5_mouse_fsm (cfg : MBConfig) (m0 : MouseButtonFSM)
    (h0 : m0.state = .mbsIdle) (p p2 p3 : Position) (mods mods2 mods3 : Int) :
    (cfg.doubleClickDuration = 0 →
      mbRun cfg m0 [.mouse true p mods, .mouse false p mods] =
        (⟨.mbsIdle, mods, p, false⟩, [.click mods p])) ∧
    (cfg.doubleClickDuration ≠ 0 →
      mbRun cfg m0 [.mouse true p mods, .mouse false p mods] =
        (⟨.mbsUp, mods, p, true⟩, []) ∧
      mbRun cfg m0 [.mouse true p mods, .mouse false p mods, .mouse true p2 mods2] =
        (⟨.mbsDown2, mods, p, true⟩, [.doubleClick mods p]) ∧
      mbRun cfg m0 [.mouse true p mods, .mouse false p mods, .mouse true p2 mods2,
          .mouse false p2 mods2] =
        (⟨.mbsIdle, mods, p, true⟩, [.doubleClick mods p]) ∧
      mbRun cfg m0 [.mouse true p mods, .mouse false p mods, .mouse true p2 mods2,
          .mouse true p3 mods3] =
        (⟨.mbsIdle, mods, p, true⟩, [.doubleClick mods p])) := by
  obtain ⟨s0, md0, p0, ta0⟩ := m0
  simp only at h0
  subst h0
  constructor
  · intro hz
    simp [mbRun, mbStep, hz]
  · intro hnz
    refine ⟨?_, ?_, ?_, ?_⟩ <;> simp [mbRun, mbStep, hnz]

/-- C5 witness: with click duration 150 and double-click duration 0, a
press at (3,4) and release yields exactly one click there; with
double-click duration 120, press-release-press yields exactly one
double-click. -/
theorem C5_mouse_fsm_witness :
    (mbRun ⟨150, 0⟩ ⟨.mbsIdle, 0, ⟨0, 0⟩, false⟩
        [.mouse true ⟨3, 4⟩ 0, .mouse false ⟨3, 4⟩ 0] =
      (⟨.mbsIdle, 0, ⟨3, 4⟩, false⟩, [.click 0 ⟨3, 4⟩])) ∧
    (mbRun ⟨150, 120⟩ ⟨.mbsIdle, 0, ⟨0, 0⟩, false⟩
        [.mouse true ⟨3, 4⟩ 0, .mouse false ⟨3, 4⟩ 0, .mouse true ⟨5, 6⟩ 0] =
      (⟨.mbsDown2, 0, ⟨3, 4⟩, true⟩, [.doubleClick 0 ⟨3, 4⟩])) := by
  refine ⟨?_, ?_⟩
  · exact (C5_mouse_fsm ⟨150, 0⟩ ⟨.mbsIdle, 0, ⟨0, 0⟩, false⟩ rfl ⟨3, 4⟩ ⟨5, 6⟩ ⟨7, 8⟩
      0 0 0).1 rfl
  · exact ((C5_mouse_fsm ⟨150, 120⟩ ⟨.mbsIdle, 0, ⟨0, 0⟩, false⟩ rfl ⟨3, 4⟩ ⟨5, 6⟩ ⟨7, 8⟩
      0 0 0).2 (by decide)).2.1

/-- findChild descends into exactly the frontmost child whose rectangle
contains the point. -/
theorem findChild_eq_topHit (l : List WinTree) (wp : Position) :
    findChild l wp = (topHit l wp).map (fun ch => findEventTarget ch (wp.sub ch.position)) := by
  induction l with
  | nil => simp [findChild, topHit]
  | cons ch rest ih =>
    rw [findChild, topHit, ih]
    cases topHit rest wp with
    | some c => simp
    | none =>
      cases hh : (Rectangle.mk ch.position ch.size).Has wp <;> simp [hh]

/-- C6: hit testing a point through a window tree.  A point outside the
client area targets the window itself with the untranslated point and
the border handler.  A point inside the client area is adjusted by the
viewport origin and rebased to the client area; if no child rectangle
contains the adjusted point the window itself is the target with the
client-area handler, and otherwise the search descends into the
frontmost containing child with the point rebased by that child's
position, recursing until no child matches. -/
theorem C6_hit_testing (w : WinTree) (p : Position) :
    (w.clientArea.Has p = false → findEventTarget w p = (w, p, false)) ∧
    (w.clientArea.Has p = true →
      (topHit w.children ((p.add w.view).sub w.clientArea.pos) = none →
        findEventTarget w p = (w, (p.add w.view).sub w.clientArea.pos, true)) ∧
      (∀ ch, topHit w.children ((p.add w.view).sub w.clientArea.pos) = some ch →
        findEventTarget w p =
          findEventTarget ch (((p.add w.view).sub w.clientArea.pos).sub ch.position))) := by
  obtain ⟨clArea, view, pos, sz, children⟩ := w
  simp only [WinTree.clientArea, WinTree.view, WinTree.children]
  refine ⟨fun hout => ?_, fun hin => ⟨fun hnone => ?_, fun ch hch => ?_⟩⟩
  · rw [findEventTarget]
    simp [hout]
  · rw [findEventTarget]
    simp [hin, findChild_eq_topHit, hnone]
  · rw [findEventTarget]
    simp [hin, findChild_eq_topHit, hch]

/-- C6 witness: in a 10x10 window with viewport origin (1,0) holding one
child at position (2,2) of size 3x3, the point (3,3) lies in the client
area, is adjusted to (4,3), falls into the child's rectangle, and the
search descends into the child with the local point (2,1); there no
further child matches and the point lies on the child's border, so the
terminal target is the child with the border handler. -/
theorem C6_hit_testing_witness :
    (WinTree.node ⟨⟨0, 0⟩, ⟨10, 10⟩⟩ ⟨1, 0⟩ ⟨0, 0⟩ ⟨10, 10⟩
        [WinTree.node ⟨⟨1, 1⟩, ⟨1, 1⟩⟩ ⟨0, 0⟩ ⟨2, 2⟩ ⟨3, 3⟩ []]).clientArea.Has
        ⟨3, 3⟩ = true ∧
    findEventTarget
        (WinTree.node ⟨⟨0, 0⟩, ⟨10, 10⟩⟩ ⟨1, 0⟩ ⟨0, 0⟩ ⟨10, 10⟩
          [WinTree.node ⟨⟨1, 1⟩, ⟨1, 1⟩⟩ ⟨0, 0⟩ ⟨2, 2⟩ ⟨3, 3⟩ []]) ⟨3, 3⟩ =
      findEventTarget (WinTree.node ⟨⟨1, 1⟩, ⟨1, 1⟩⟩ ⟨0, 0⟩ ⟨2, 2⟩ ⟨3, 3⟩ []) ⟨2, 1⟩ := by
  constructor
  · rfl
  · exact ((C6_hit_testing
      (WinTree.node ⟨⟨0, 0⟩, ⟨10, 10⟩⟩ ⟨1, 0⟩ ⟨0, 0⟩ ⟨10, 10⟩
        [WinTree.node ⟨⟨1, 1⟩, ⟨1, 1⟩⟩ ⟨0, 0⟩ ⟨2, 2⟩ ⟨3, 3⟩ []]) ⟨3, 3⟩).2 rfl).2
      (WinTree.node ⟨⟨1, 1⟩, ⟨1, 1⟩⟩ ⟨0, 0⟩ ⟨2, 2⟩ ⟨3, 3⟩ []) rfl

/-- One termination operation preserves the invariant, updating the
summaries. -/
theorem termStep_inv (st : TermState) (fe : Option (Option String)) (hw : Bool)
    (op : TermOp) (h : TermInv fe hw st) :
    TermInv (stepFe fe op) (stepHw hw op) (termStep st op) := by
  obtain ⟨fin, ex, wa, ch, pw, fc, sc, rc, rcv⟩ := st
  cases op <;> cases fe <;> cases hw <;> cases fin <;> cases ex <;> cases wa <;>
      cases pw <;>
    simp_all [TermInv, termStep, finalizeStep, exitStep, waitStep, stepFe, stepHw]

/-- Folding a whole operation list preserves the invariant. -/
theorem termFold_inv (ops : List TermOp) :
    ∀ (st : TermState) (fe : Option (Option String)) (hw : Bool), TermInv fe hw st →
      TermInv (ops.foldl stepFe fe) (ops.foldl stepHw hw) (ops.foldl termStep st) := by
  induction ops with
  | nil =>
    intro st fe hw h
    simpa using h
  | cons op rest ih =>
    intro st fe hw h
    simpa using ih _ _ _ (termStep_inv st fe hw op h)

/-- A some accumulator absorbs the rest of the fold. -/
theorem foldl_stepFe_some (x : Option String) :
    ∀ ops : List TermOp, ops.foldl stepFe (some x) = some x := by
  intro ops
  induction ops with
  | nil => rfl
  | cons op rest ih => simpa [stepFe] using ih

/-- The first-exit summary computed by the fold is firstExitErr. -/
theorem foldl_stepFe_none :
    ∀ ops : List TermOp, ops.foldl stepFe none = firstExitErr ops := by
  intro ops
  induction ops with
  | nil => rfl
  | cons op rest ih =>
    cases op with
    | exit e => simpa [stepFe, firstExitErr] using foldl_stepFe_some e rest
    | finalize => simpa [stepFe, firstExitErr] using ih
    | wait => simpa [stepFe, firstExitErr] using ih

/-- A true accumulator absorbs the rest of the fold. -/
theorem foldl_stepHw_true :
    ∀ ops : List TermOp, ops.foldl stepHw true = true := by
  intro ops
  induction ops with
  | nil => rfl
  | cons op rest ih => cases op <;> simpa [stepHw] using ih

/-- The wait summary computed by the fold is hasWaitOp. -/
theorem foldl_stepHw_false :
    ∀ ops : List TermOp, ops.foldl stepHw false = hasWaitOp ops := by
  intro ops
  induction ops with
  | nil => rfl
  | cons op rest ih =>
    cases op with
    | exit e => simpa [stepHw, hasWaitOp] using ih
    | finalize => simpa [stepHw, hasWaitOp] using ih
    | wait => simpa [stepHw, hasWaitOp] using foldl_stepHw_true rest

/-- C8: in every interleaving of Exit, finalize and Wait calls, the
screen is released at most once, the termination error is sent at most
once, and the channel is received from at most once; and whenever the
sequence contains both an Exit and a Wait, the waiter is unblocked
exactly once and receives precisely the error passed to the FIRST Exit
call. -/
theorem C8_termination_idempotent (ops : List TermOp) :
    (runTerm ops).finiCount ≤ 1 ∧
    (runTerm ops).sendCount ≤ 1 ∧
    (runTerm ops).recvCount ≤ 1 ∧
    (∀ e0, firstExitErr ops = some e0 → hasWaitOp ops = true →
      (runTerm ops).recvCount = 1 ∧ (runTerm ops).received = some e0) := by
  have h0 : TermInv none false initTermState := by
    simp [TermInv, initTermState]
  have h := termFold_inv ops initTermState none false h0
  rw [foldl_stepFe_none, foldl_stepHw_false] at h
  obtain ⟨h1, h2, h3, h4⟩ := h
  unfold runTerm
  refine ⟨by rw [h1]; split <;> norm_num, by rw [h2]; split <;> norm_num, ?_, ?_⟩
  · cases hfe : firstExitErr ops with
    | none =>
      rw [hfe] at h4
      simp only at h4
      omega
    | some e0 =>
      rw [hfe] at h4
      simp only at h4
      rcases h4 with ⟨-, -, h5⟩
      split at h5 <;> omega
  · intro e0 hfe hww
    rw [hfe] at h4
    simp only at h4
    rcases h4 with ⟨-, -, h5⟩
    rw [hww] at h5
    simp only [if_true] at h5
    exact ⟨h5.2.1, h5.2.2⟩

/-- C8 witness: the interleaving Wait, Exit("boom"), finalize, Exit(nil),
Wait releases the screen once, sends once, unblocks the waiter once, and
the waiter receives the first Exit's error "boom". -/
theorem C8_termination_idempotent_witness :
    firstExitErr [TermOp.wait, TermOp.exit (some "boom"), TermOp.finalize,
        TermOp.exit none, TermOp.wait] = some (some "boom") ∧
    hasWaitOp [TermOp.wait, TermOp.exit (some "boom"), TermOp.finalize,
        TermOp.exit none, TermOp.wait] = true ∧
    (runTerm [TermOp.wait, TermOp.exit (some "boom"), TermOp.finalize,
        TermOp.exit none, TermOp.wait]).recvCount = 1 ∧
    (runTerm [TermOp.wait, TermOp.exit (some "boom"), TermOp.finalize,
        TermOp.exit none, TermOp.wait]).received = some (some "boom") := by
  have h := (C8_termination_idempotent [TermOp.wait, TermOp.exit (some "boom"),
    TermOp.finalize, TermOp.exit none, TermOp.wait]).2.2.2 (some "boom")
    (by decide) (by decide)
  exact ⟨by decide, by decide, h.1, h.2⟩

/-- Completed SetSize/SetClientSize calls on a window with a parent
either are exact no-ops or leave the stored sizes satisfying the
size/client-size relation; they always preserve non-negativity. -/
theorem szFuel_spec : ∀ fuel : ℕ,
    (∀ w s w2, w.hasParent = true → szNonneg w → setSizeHandleF fuel w s = some w2 →
      ((w2 = w ∧ w.size = s) ∨ szInv w2) ∧ szNonneg w2) ∧
    (∀ w s w2, w.hasParent = true → szNonneg w → setClientSizeHandleF fuel w s = some w2 →
      ((w2 = w ∧ w.clientSize = s) ∨ szInv w2) ∧ szNonneg w2) ∧
    (∀ w s w2, w.hasParent = true → szNonneg w → SetSizeF fuel w s = some w2 →
      ((w2 = w ∧ w.size = s) ∨ szInv w2) ∧ szNonneg w2) := by
  intro fuel
  induction fuel with
  | zero =>
    refine ⟨fun w s w2 _ _ h => ?_, fun w s w2 _ _ h => ?_, fun w s w2 _ _ h => ?_⟩ <;>
      simp [setSizeHandleF, setClientSizeHandleF, SetSizeF] at h
  | succ n ih =>
    obtain ⟨ihA, ihB, ihC⟩ := ih
    refine ⟨fun w s w2 hp hn h => ?_, fun w s w2 hp hn h => ?_, fun w s w2 hp hn h => ?_⟩
    · simp only [setSizeHandleF] at h
      by_cases he : w.size = s
      · rw [if_pos he] at h
        obtain rfl : w = w2 := Option.some_inj.mp h
        exact ⟨Or.inl ⟨rfl, he⟩, hn⟩
      · rw [if_neg he] at h
        have hB := ihB _ _ _ (by exact hp)
          (by
            obtain ⟨n1, n2, n3, n4⟩ := hn
            exact ⟨le_max_left 0 s.Width, le_max_left 0 s.Height, n3, n4⟩) h
        refine ⟨Or.inr ?_, hB.2⟩
        rcases hB.1 with ⟨rfl, hcl⟩ | hinv
        · exact ⟨by rw [hcl], by rw [hcl]⟩
        · exact hinv
    · simp only [setClientSizeHandleF] at h
      by_cases he : w.clientSize = s
      · rw [if_pos he] at h
        obtain rfl : w = w2 := Option.some_inj.mp h
        exact ⟨Or.inl ⟨rfl, he⟩, hn⟩
      · rw [if_neg he] at h
        have hC := ihC _ _ _ (by exact hp)
          (by
            obtain ⟨n1, n2, n3, n4⟩ := hn
            exact ⟨n1, n2, le_max_left 0 s.Width, le_max_left 0 s.Height⟩) h
        refine ⟨Or.inr ?_, hC.2⟩
        rcases hC.1 with ⟨rfl, hsz⟩ | hinv
        · obtain ⟨⟨sw, sh2⟩, ⟨cw, ch2⟩, bl, br, bt, bb, hpb⟩ := w
          simp only [Size.mk.injEq] at hsz
          simp only [szInv]
          constructor <;> omega
        · exact hinv
    · simp only [SetSizeF] at h
      rw [if_pos (by simpa using hp)] at h
      exact ihA _ _ _ hp hn h

/-- C10 counterexample: the claim fails for a root window.  A desktop
root with size {80,25}, zero borders and client size {80,25} completes
SetClientSize({5,5}) -- the recomputed SetSize is a no-op because the
root has no parent -- leaving clientWidth = 5 while max(0, width -
borderLeft - borderRight) = 80. -/
theorem C10_root_counterexample :
    setClientSizeHandleF 8 ⟨⟨80, 25⟩, ⟨80, 25⟩, 0, 0, 0, 0, false⟩ ⟨5, 5⟩ =
      some ⟨⟨80, 25⟩, ⟨5, 5⟩, 0, 0, 0, 0, false⟩ ∧
    ¬szInv ⟨⟨80, 25⟩, ⟨5, 5⟩, 0, 0, 0, 0, false⟩ := by
  exact ⟨by decide, by unfold szInv; decide⟩

/-- C10 (amended to windows with a parent): for every window that has a
parent and whose stored sizes are non-negative and satisfy the
size/client-size relation, any completed SetSize or SetClientSize call
-- with any requested size, negative components included -- leaves the
stored window size and client-area size non-negative and satisfying
clientWidth = max(0, width - borderLeft - borderRight) and clientHeight
= max(0, height - borderTop - borderBottom). -/
theorem C10_sizes_invariant (fuel : ℕ) (w w2 : WinSz) (s : Size)
    (hp : w.hasParent = true) (hw : szInv w) (hn : szNonneg w)
    (h : SetSizeF fuel w s = some w2 ∨ setClientSizeHandleF fuel w s = some w2) :
    szInv w2 ∧ szNonneg w2 := by
  rcases h with h | h
  · have hs := (szFuel_spec fuel).2.2 w s w2 hp hn h
    rcases hs.1 with ⟨rfl, -⟩ | hinv
    · exact ⟨hw, hs.2⟩
    · exact ⟨hinv, hs.2⟩
  · have hs := (szFuel_spec fuel).2.1 w s w2 hp hn h
    rcases hs.1 with ⟨rfl, -⟩ | hinv
    · exact ⟨hw, hs.2⟩
    · exact ⟨hinv, hs.2⟩

/-- C10 witness: a 10x10 child window with unit borders and client size
8x8 receives SetSize({-5,7}); the completed call stores size {2,7} and
client size {0,5}, which are non-negative and satisfy the relation. -/
theorem C10_sizes_invariant_witness :
    (SetSizeF 8 ⟨⟨10, 10⟩, ⟨8, 8⟩, 1, 1, 1, 1, true⟩ ⟨-5, 7⟩ =
      some ⟨⟨2, 7⟩, ⟨0, 5⟩, 1, 1, 1, 1, true⟩) ∧
    szInv ⟨⟨2, 7⟩, ⟨0, 5⟩, 1, 1, 1, 1, true⟩ ∧
    szNonneg ⟨⟨2, 7⟩, ⟨0, 5⟩, 1, 1, 1, 1, true⟩ := by
  have h := C10_sizes_invariant 8 ⟨⟨10, 10⟩, ⟨8, 8⟩, 1, 1, 1, 1, true⟩
    ⟨⟨2, 7⟩, ⟨0, 5⟩, 1, 1, 1, 1, true⟩ ⟨-5, 7⟩ rfl (by unfold szInv; decide)
    (by unfold szNonneg; decide) (Or.inl (by decide))
  exact ⟨by decide, h.1, h.2⟩

/-- C2 counterexample: the claim's second half is false.  On the 80x25
desktop root with viewport origin (2,1), neither the full-client repaint
triggered by SetOrigin (area {0,0,80,25}) nor the repaint triggered by
re-invalidating the client area (area {0,0,78,24}, the translated clip
of the client rectangle) contains ANY stage observing a PaintContext
with rectangle {0,0,80,25} and viewport {2,1}: the client-area content
stage sees the rectangle shifted to position (2,1), and the clear stage
that does see {0,0,80,25} carries viewport {0,0}. -/
theorem C2_claimed_context_refuted :
    (SetOrigin ⟨⟨80, 25⟩, ⟨0, 0⟩, ⟨⟨0, 0⟩, ⟨80, 25⟩⟩, ⟨0, 0⟩, 0, 0, 0, 0, "", false⟩
        (.root ⟨⟨80, 25⟩, ⟨0, 0⟩, ⟨⟨0, 0⟩, ⟨80, 25⟩⟩, ⟨0, 0⟩, 0, 0, 0, 0, "", false⟩)
        (InvalidateClientArea
          ⟨⟨80, 25⟩, ⟨0, 0⟩, ⟨⟨0, 0⟩, ⟨80, 25⟩⟩, ⟨0, 0⟩, 0, 0, 0, 0, "", false⟩
          (.root ⟨⟨80, 25⟩, ⟨0, 0⟩, ⟨⟨0, 0⟩, ⟨80, 25⟩⟩, ⟨0, 0⟩, 0, 0, 0, 0, "", false⟩)
          ⟨⟨0, 0⟩, ⟨80, 25⟩⟩ ⟨0, zeroRect, 0, [], 0⟩)
        ⟨0, 0⟩ ⟨2, 1⟩).2 = (⟨2, 1⟩ : Position) ∧
    (∀ sc ∈ paintStages
        ⟨⟨80, 25⟩, ⟨0, 0⟩, ⟨⟨0, 0⟩, ⟨80, 25⟩⟩, ⟨2, 1⟩, 0, 0, 0, 0, "", false⟩
        ⟨⟨0, 0⟩, ⟨80, 25⟩⟩,
      ¬(sc.2.rect = ⟨⟨0, 0⟩, ⟨80, 25⟩⟩ ∧ sc.2.view = (⟨2, 1⟩ : Position))) ∧
    (∀ sc ∈ paintStages
        ⟨⟨80, 25⟩, ⟨0, 0⟩, ⟨⟨0, 0⟩, ⟨80, 25⟩⟩, ⟨2, 1⟩, 0, 0, 0, 0, "", false⟩
        ⟨⟨0, 0⟩, ⟨78, 24⟩⟩,
      ¬(sc.2.rect = ⟨⟨0, 0⟩, ⟨80, 25⟩⟩ ∧ sc.2.view = (⟨2, 1⟩ : Position))) := by
  exact ⟨by decide, by decide, by decide⟩

/-- C2 (amended): on a freshly shown 80x25 desktop, invalidating the
root's client area flushes one repaint of {0,0,80,25}, during which the
clear-client-area stage and the client-area paint stage both observe
PaintContext{rect {0,0,80,25}, origin {0,0}, view {0,0}}.  After
SetOrigin({2,1}) the stored origin is (2,1) and the triggered
full-client repaint (again of {0,0,80,25}) hands the client-area paint
stage PaintContext{rect {2,1,80,25}, origin {0,0}, view {2,1}} -- the
same rectangle SHIFTED by the viewport, exactly as
TestDesktopPaintContext expects -- while the clear stage keeps
{0,0,80,25} with view {0,0}; re-invalidating the client area then
paints the translated clip {0,0,78,24}, observed by the client-area
paint stage as {2,1,78,24} with view {2,1}. -/
theorem C2_paint_context_amended :
    (InvalidateClientArea
        ⟨⟨80, 25⟩, ⟨0, 0⟩, ⟨⟨0, 0⟩, ⟨80, 25⟩⟩, ⟨0, 0⟩, 0, 0, 0, 0, "", false⟩
        (.root ⟨⟨80, 25⟩, ⟨0, 0⟩, ⟨⟨0, 0⟩, ⟨80, 25⟩⟩, ⟨0, 0⟩, 0, 0, 0, 0, "", false⟩)
        ⟨⟨0, 0⟩, ⟨80, 25⟩⟩ ⟨0, zeroRect, 0, [], 0⟩).painted =
      [⟨⟨0, 0⟩, ⟨80, 25⟩⟩] ∧
    (InvalidateClientArea
        ⟨⟨80, 25⟩, ⟨0, 0⟩, ⟨⟨0, 0⟩, ⟨80, 25⟩⟩, ⟨0, 0⟩, 0, 0, 0, 0, "", false⟩
        (.root ⟨⟨80, 25⟩, ⟨0, 0⟩, ⟨⟨0, 0⟩, ⟨80, 25⟩⟩, ⟨0, 0⟩, 0, 0, 0, 0, "", false⟩)
        ⟨⟨0, 0⟩, ⟨80, 25⟩⟩ ⟨0, zeroRect, 0, [], 0⟩).flushes = 1 ∧
    (PaintStage.clearClientArea,
      (⟨⟨⟨0, 0⟩, ⟨80, 25⟩⟩, ⟨0, 0⟩, ⟨0, 0⟩⟩ : PaintContext)) ∈
      paintStages ⟨⟨80, 25⟩, ⟨0, 0⟩, ⟨⟨0, 0⟩, ⟨80, 25⟩⟩, ⟨0, 0⟩, 0, 0, 0, 0, "", false⟩
        ⟨⟨0, 0⟩, ⟨80, 25⟩⟩ ∧
    (PaintStage.paintClientArea,
      (⟨⟨⟨0, 0⟩, ⟨80, 25⟩⟩, ⟨0, 0⟩, ⟨0, 0⟩⟩ : PaintContext)) ∈
      paintStages ⟨⟨80, 25⟩, ⟨0, 0⟩, ⟨⟨0, 0⟩, ⟨80, 25⟩⟩, ⟨0, 0⟩, 0, 0, 0, 0, "", false⟩
        ⟨⟨0, 0⟩, ⟨80, 25⟩⟩ ∧
    (SetOrigin ⟨⟨80, 25⟩, ⟨0, 0⟩, ⟨⟨0, 0⟩, ⟨80, 25⟩⟩, ⟨0, 0⟩, 0, 0, 0, 0, "", false⟩
        (.root ⟨⟨80, 25⟩, ⟨0, 0⟩, ⟨⟨0, 0⟩, ⟨80, 25⟩⟩, ⟨0, 0⟩, 0, 0, 0, 0, "", false⟩)
        (InvalidateClientArea
          ⟨⟨80, 25⟩, ⟨0, 0⟩, ⟨⟨0, 0⟩, ⟨80, 25⟩⟩, ⟨0, 0⟩, 0, 0, 0, 0, "", false⟩
          (.root ⟨⟨80, 25⟩, ⟨0, 0⟩, ⟨⟨0, 0⟩, ⟨80, 25⟩⟩, ⟨0, 0⟩, 0, 0, 0, 0, "", false⟩)
          ⟨⟨0, 0⟩, ⟨80, 25⟩⟩ ⟨0, zeroRect, 0, [], 0⟩)
        ⟨0, 0⟩ ⟨2, 1⟩).2 = (⟨2, 1⟩ : Position) ∧
    (SetOrigin ⟨⟨80, 25⟩, ⟨0, 0⟩, ⟨⟨0, 0⟩, ⟨80, 25⟩⟩, ⟨0, 0⟩, 0, 0, 0, 0, "", false⟩
        (.root ⟨⟨80, 25⟩, ⟨0, 0⟩, ⟨⟨0, 0⟩, ⟨80, 25⟩⟩, ⟨0, 0⟩, 0, 0, 0, 0, "", false⟩)
        (InvalidateClientArea
          ⟨⟨80, 25⟩, ⟨0, 0⟩, ⟨⟨0, 0⟩, ⟨80, 25⟩⟩, ⟨0, 0⟩, 0, 0, 0, 0, "", false⟩
          (.root ⟨⟨80, 25⟩, ⟨0, 0⟩, ⟨⟨0, 0⟩, ⟨80, 25⟩⟩, ⟨0, 0⟩, 0, 0, 0, 0, "", false⟩)
          ⟨⟨0, 0⟩, ⟨80, 25⟩⟩ ⟨0, zeroRect, 0, [], 0⟩)
        ⟨0, 0⟩ ⟨2, 1⟩).1.painted =
      [⟨⟨0, 0⟩, ⟨80, 25⟩⟩, ⟨⟨0, 0⟩, ⟨80, 25⟩⟩] ∧
    (PaintStage.paintClientArea,
      (⟨⟨⟨2, 1⟩, ⟨80, 25⟩⟩, ⟨0, 0⟩, ⟨2, 1⟩⟩ : PaintContext)) ∈
      paintStages ⟨⟨80, 25⟩, ⟨0, 0⟩, ⟨⟨0, 0⟩, ⟨80, 25⟩⟩, ⟨2, 1⟩, 0, 0, 0, 0, "", false⟩
        ⟨⟨0, 0⟩, ⟨80, 25⟩⟩ ∧
    (PaintStage.clearClientArea,
      (⟨⟨⟨0, 0⟩, ⟨80, 25⟩⟩, ⟨0, 0⟩, ⟨0, 0⟩⟩ : PaintContext)) ∈
      paintStages ⟨⟨80, 25⟩, ⟨0, 0⟩, ⟨⟨0, 0⟩, ⟨80, 25⟩⟩, ⟨2, 1⟩, 0, 0, 0, 0, "", false⟩
        ⟨⟨0, 0⟩, ⟨80, 25⟩⟩ ∧
    (InvalidateClientArea
        ⟨⟨80, 25⟩, ⟨0, 0⟩, ⟨⟨0, 0⟩, ⟨80, 25⟩⟩, ⟨2, 1⟩, 0, 0, 0, 0, "", false⟩
        (.root ⟨⟨80, 25⟩, ⟨0, 0⟩, ⟨⟨0, 0⟩, ⟨80, 25⟩⟩, ⟨2, 1⟩, 0, 0, 0, 0, "", false⟩)
        ⟨⟨0, 0⟩, ⟨80, 25⟩⟩ ⟨0, zeroRect, 0, [], 0⟩).painted =
      [⟨⟨0, 0⟩, ⟨78, 24⟩⟩] ∧
    (PaintStage.paintClientArea,
      (⟨⟨⟨2, 1⟩, ⟨78, 24⟩⟩, ⟨0, 0⟩, ⟨2, 1⟩⟩ : PaintContext)) ∈
      paintStages ⟨⟨80, 25⟩, ⟨0, 0⟩, ⟨⟨0, 0⟩, ⟨80, 25⟩⟩, ⟨2, 1⟩, 0, 0, 0, 0, "", false⟩
        ⟨⟨0, 0⟩, ⟨78, 24⟩⟩ := by
  refine ⟨by decide, by decide, by decide, by decide, by decide, by decide, by decide,
    by decide, by decide, by decide⟩

/-- C7 witness: Clip of the overlapping rectangles {0,0,2,2} and
{1,1,2,2} returns some {1,1,1,1}, whose membership agrees pointwise with
both operands at the sample point (1,1). -/
theorem C7_clip_intersection_witness :
    (Rectangle.Clip ⟨⟨0, 0⟩, ⟨2, 2⟩⟩ ⟨⟨1, 1⟩, ⟨2, 2⟩⟩ = some ⟨⟨1, 1⟩, ⟨1, 1⟩⟩) ∧
    (Rectangle.Has ⟨⟨1, 1⟩, ⟨1, 1⟩⟩ ⟨1, 1⟩ =
      (Rectangle.Has ⟨⟨0, 0⟩, ⟨2, 2⟩⟩ ⟨1, 1⟩ && Rectangle.Has ⟨⟨1, 1⟩, ⟨2, 2⟩⟩ ⟨1, 1⟩)) ∧
    Rectangle.IsZero ⟨⟨1, 1⟩, ⟨1, 1⟩⟩ = false := by
  have h := (C7_clip_intersection ⟨⟨0, 0⟩, ⟨2, 2⟩⟩ ⟨⟨1, 1⟩, ⟨2, 2⟩⟩).2.2
    ⟨⟨1, 1⟩, ⟨1, 1⟩⟩ (by decide)
  exact ⟨by decide, h.1 ⟨1, 1⟩, h.2⟩

end WM
